import Mathlib

/-!
Verification of the `ExecutedBlock` core of the consensus engine
(`consensus/consensus-types/src/executed_block.rs`).

The file first embeds the data model: the types the executed-block core
reads (`Block`, `StateComputeResult`, `QuorumCert`, `BlockInfo`,
`VoteProposal`, `MaybeSignedVoteProposal`) and then the operations of
`ExecutedBlock` itself, translated method by method from the source.
Types defined outside the given source excerpt (Block, StateComputeResult,
and the message types) are modelled from the specification, as marked on
each definition. Opaque external values (hashes, transactions, events,
proofs, signatures) are represented as abstract tokens wrapping a natural
number, which keeps every definition executable and every equality
decidable.
-/

/-- Opaque cryptographic hash value (aptos_crypto HashValue); abstract token. -/
structure HashValue where
  val : Nat
deriving DecidableEq, Repr

/-- Opaque transaction value (aptos_types Transaction); abstract token. -/
structure Transaction where
  val : Nat
deriving DecidableEq, Repr

/-- Opaque contract event (aptos_types ContractEvent); abstract token. -/
structure ContractEvent where
  val : Nat
deriving DecidableEq, Repr

/-- Opaque epoch state carried by a reconfiguration; abstract token. -/
structure EpochState where
  val : Nat
deriving DecidableEq, Repr

/-- Opaque accumulator extension proof forwarded into vote messages; abstract token. -/
structure ExtensionProof where
  val : Nat
deriving DecidableEq, Repr

/-- Opaque signature forwarded into vote messages; abstract token. -/
structure Signature where
  val : Nat
deriving DecidableEq, Repr

/-- Modelled from the spec: per-transaction outcome taxonomy of
`compute_status` entries (aptos_types TransactionStatus, not in the given
sources): each entry is Keep(outcome), Discard(reason) or Retry. The
payloads of Keep and Discard are abstract tokens. -/
inductive TransactionStatus where
  | Keep (outcome : Nat)
  | Discard (reason : Nat)
  | Retry
deriving DecidableEq, Repr

/-- True exactly on `Keep` statuses. -/
def TransactionStatus.isKeep : TransactionStatus → Bool
  | TransactionStatus.Keep _ => true
  | _ => false

/-- Modelled from the spec: `BlockInfo`, the compact hashable summary a
quorum certificate commits to — epoch, round, id, root hash, version,
timestamp, optional epoch state (spec section 2 and 4.1; the concrete
struct lives in aptos_types, outside the given sources). -/
structure BlockInfo where
  epoch : Nat
  round : Nat
  id : HashValue
  executed_state_id : HashValue
  version : Nat
  timestamp_usecs : Nat
  next_epoch_state : Option EpochState
deriving DecidableEq, Repr

/-- Modelled from the spec: `QuorumCert` (not in the given sources) — an
already-validated certificate exposing the certified `BlockInfo`. -/
structure QuorumCert where
  certified_block : BlockInfo
deriving DecidableEq, Repr

/-- Modelled from the spec: the block payload, an ordered sequence of
transactions (spec section 3). -/
abbrev Payload := List Transaction

/-- Modelled from the spec: `Block` (not in the given sources) — an
immutable proposal with id, epoch, round, timestamp, optional payload,
and the quorum certificate of its parent, which is absent only for the
genesis/root block (spec section 3). -/
structure Block where
  id : HashValue
  epoch : Nat
  round : Nat
  timestamp_usecs : Nat
  payload : Option Payload
  quorum_cert : Option QuorumCert
deriving DecidableEq, Repr

/-- Modelled from the spec: the transaction sequence a block submits for
execution — the transactions of its payload, empty when the payload is
absent (spec sections 3 and 4.1 treat the executed sequence and the
payload sequence as the same; `Block::transactions_to_execute` itself is
not in the given sources). -/
def Block.transactions_to_execute (b : Block) : List Transaction :=
  b.payload.getD []

/-- Modelled from the spec: `Block::gen_block_info` (not in the given
sources) builds the `BlockInfo` summary from the epoch, round, id and
timestamp of the block plus the supplied root hash, version and epoch
state (spec section 4.1). -/
def Block.gen_block_info (b : Block) (root_hash : HashValue) (version : Nat)
    (epoch_state : Option EpochState) : BlockInfo :=
  { epoch := b.epoch
    round := b.round
    id := b.id
    executed_state_id := root_hash
    version := version
    timestamp_usecs := b.timestamp_usecs
    next_epoch_state := epoch_state }

/-- Modelled from the spec: `StateComputeResult` (lives in executor_types,
outside the given sources) — root hash and version of the resulting
state, per-transaction compute status, reconfiguration events, the epoch
state present exactly when a reconfiguration occurred, and opaque
provenance data (spec section 3). -/
structure StateComputeResult where
  root_hash : HashValue
  version : Nat
  compute_status : List TransactionStatus
  epoch_state : Option EpochState
  reconfig_events : List ContractEvent
  extension_proof : ExtensionProof
  signature : Option Signature
deriving DecidableEq, Repr

/-- Modelled from the spec: `has_reconfiguration()` is true iff the result
carries an epoch state, i.e. represents (or carries over from) a
reconfiguration (spec section 3: `epoch_state` is present only in that
case). -/
def StateComputeResult.has_reconfiguration (r : StateComputeResult) : Bool :=
  r.epoch_state.isSome

/-- Modelled from the spec: `VoteProposal` (not in the given sources) —
the vote message body carrying the extension proof, the block, the epoch
state, and the decoupled-execution flag (spec section 4.1). Field order
follows the argument order of `VoteProposal::new` in the source. -/
structure VoteProposal where
  accumulator_extension_proof : ExtensionProof
  block : Block
  next_epoch_state : Option EpochState
  decoupled_execution : Bool
deriving DecidableEq, Repr

/-- Modelled from the spec: `VoteProposal::new` constructor. -/
def VoteProposal.new (proof : ExtensionProof) (block : Block)
    (epoch_state : Option EpochState) (decoupled_execution : Bool) : VoteProposal :=
  { accumulator_extension_proof := proof
    block := block
    next_epoch_state := epoch_state
    decoupled_execution := decoupled_execution }

/-- Modelled from the spec: `MaybeSignedVoteProposal` — a vote proposal
paired with a possibly absent signature. -/
structure MaybeSignedVoteProposal where
  vote_proposal : VoteProposal
  signature : Option Signature
deriving DecidableEq, Repr

/-- `ExecutedBlock` from executed_block.rs: a `Block` paired with the
`StateComputeResult` of executing it. -/
structure ExecutedBlock where
  block : Block
  state_compute_result : StateComputeResult
deriving DecidableEq, Repr

/-- `ExecutedBlock::new`. -/
def ExecutedBlock.new (block : Block) (state_compute_result : StateComputeResult) :
    ExecutedBlock :=
  { block := block, state_compute_result := state_compute_result }

/-- `ExecutedBlock::id`: the id of the wrapped block. -/
def ExecutedBlock.id (e : ExecutedBlock) : HashValue :=
  e.block.id

/-- `ExecutedBlock::epoch`: the epoch of the wrapped block. -/
def ExecutedBlock.epoch (e : ExecutedBlock) : Nat :=
  e.block.epoch

/-- `ExecutedBlock::payload`: the optional payload of the wrapped block. -/
def ExecutedBlock.payload (e : ExecutedBlock) : Option Payload :=
  e.block.payload

/-- `ExecutedBlock::quorum_cert`: the quorum certificate of the wrapped
block. In the model the certificate is optional, absent only for the
genesis/root block (spec section 3). -/
def ExecutedBlock.quorum_cert (e : ExecutedBlock) : Option QuorumCert :=
  e.block.quorum_cert

/-- `ExecutedBlock::parent_id`: the certified block id inside the wrapped
block quorum certificate. On the root block, whose certificate is absent,
the source dereferences a certificate that does not exist; the model
surfaces that missing-parent condition as `none`. -/
def ExecutedBlock.parent_id (e : ExecutedBlock) : Option HashValue :=
  e.quorum_cert.map fun qc => qc.certified_block.id

/-- `ExecutedBlock::round`: the round of the wrapped block. -/
def ExecutedBlock.round (e : ExecutedBlock) : Nat :=
  e.block.round

/-- `ExecutedBlock::timestamp_usecs`: the timestamp of the wrapped block. -/
def ExecutedBlock.timestamp_usecs (e : ExecutedBlock) : Nat :=
  e.block.timestamp_usecs

/-- `ExecutedBlock::compute_result`: the wrapped state compute result. -/
def ExecutedBlock.compute_result (e : ExecutedBlock) : StateComputeResult :=
  e.state_compute_result

/-- `ExecutedBlock::block_info`: delegates to `Block::gen_block_info` with
the root hash, version and epoch state of the compute result. -/
def ExecutedBlock.block_info (e : ExecutedBlock) : BlockInfo :=
  e.block.gen_block_info e.compute_result.root_hash e.compute_result.version
    e.compute_result.epoch_state

/-- `ExecutedBlock::maybe_signed_vote_proposal`: the vote message built
from the extension proof, the block, the epoch state, the given flag, and
the signature of the compute result. -/
def ExecutedBlock.maybe_signed_vote_proposal (e : ExecutedBlock)
    (decoupled_execution : Bool) : MaybeSignedVoteProposal :=
  { vote_proposal := VoteProposal.new e.compute_result.extension_proof
      e.block e.compute_result.epoch_state decoupled_execution
    signature := e.compute_result.signature }

/-- `ExecutedBlock::is_reconfiguration_suffix`: the state result carries
over the epoch state but has no transaction. -/
def ExecutedBlock.is_reconfiguration_suffix (e : ExecutedBlock) : Bool :=
  e.state_compute_result.has_reconfiguration
    && e.state_compute_result.compute_status.isEmpty

/-- The `itertools::zip_eq` combinator used by `transactions_to_commit`:
zips two sequences of equal length and panics on a length mismatch. The
panic is modelled as `none`. -/
def zip_eq {α β : Type} (as : List α) (bs : List β) : Option (List (α × β)) :=
  if as.length = bs.length then some (as.zip bs) else none

/-- `ExecutedBlock::transactions_to_commit`: empty for a reconfiguration
suffix; otherwise zips the executed transactions with the compute
statuses (fatal error on length mismatch, modelled as `none`) and keeps
exactly the transactions whose status is `Keep`. -/
def ExecutedBlock.transactions_to_commit (e : ExecutedBlock) :
    Option (List Transaction) :=
  if e.is_reconfiguration_suffix then
    some []
  else
    (zip_eq e.block.transactions_to_execute
        e.state_compute_result.compute_status).map fun pairs =>
      pairs.filterMap fun p =>
        match p.2 with
        | TransactionStatus.Keep _ => some p.1
        | _ => none

/-- `ExecutedBlock::reconfig_event`: empty for a reconfiguration suffix;
otherwise the reconfiguration events of the compute result, verbatim. -/
def ExecutedBlock.reconfig_event (e : ExecutedBlock) : List ContractEvent :=
  if e.is_reconfiguration_suffix then
    []
  else
    e.state_compute_result.reconfig_events

/-- Specification-side description of the commit filter (spec section
4.1): keep, in order, each transaction whose same-index compute status is
`Keep`, stated by explicit indexing so it can be compared with the
zip-and-filter implementation. -/
def keepByIndexSpec (txns : List Transaction) (statuses : List TransactionStatus) :
    List Transaction :=
  (List.range txns.length).filterMap fun i =>
    match txns[i]?, statuses[i]? with
    | some t, some (TransactionStatus.Keep _) => some t
    | _, _ => none

/-! Concrete sample values used by the witness theorems. -/

/-- Sample transaction 1. -/
def tx1 : Transaction := ⟨1⟩

/-- Sample transaction 2. -/
def tx2 : Transaction := ⟨2⟩

/-- Sample transaction 3. -/
def tx3 : Transaction := ⟨3⟩

/-- Sample certified block info of the parent. -/
def parentInfo : BlockInfo :=
  { epoch := 1, round := 4, id := ⟨9⟩, executed_state_id := ⟨99⟩,
    version := 7, timestamp_usecs := 900, next_epoch_state := none }

/-- Sample non-root block with a three-transaction payload. -/
def blockA : Block :=
  { id := ⟨10⟩, epoch := 1, round := 5, timestamp_usecs := 1000,
    payload := some [tx1, tx2, tx3],
    quorum_cert := some ⟨parentInfo⟩ }

/-- Sample root block: no quorum certificate, no payload. -/
def blockR : Block :=
  { id := ⟨1⟩, epoch := 1, round := 0, timestamp_usecs := 0,
    payload := none, quorum_cert := none }

/-- Sample compute result for scenario A: Keep, Discard, Keep, no
reconfiguration. -/
def resultA : StateComputeResult :=
  { root_hash := ⟨100⟩, version := 10,
    compute_status := [TransactionStatus.Keep 0, TransactionStatus.Discard 1,
      TransactionStatus.Keep 2],
    epoch_state := none, reconfig_events := [⟨5⟩],
    extension_proof := ⟨3⟩, signature := none }

/-- Sample compute result of a reconfiguration suffix: carried-over epoch
state, no compute status. -/
def resultS : StateComputeResult :=
  { root_hash := ⟨100⟩, version := 10, compute_status := [],
    epoch_state := some ⟨2⟩, reconfig_events := [⟨7⟩],
    extension_proof := ⟨3⟩, signature := none }

/-- Sample compute result whose status sequence mismatches the payload of
`blockA` (one entry against three transactions) without being a
reconfiguration suffix. -/
def resultM : StateComputeResult :=
  { root_hash := ⟨100⟩, version := 10,
    compute_status := [TransactionStatus.Keep 0],
    epoch_state := none, reconfig_events := [],
    extension_proof := ⟨3⟩, signature := none }

/-- Scenario A executed block: three transactions, statuses Keep, Discard,
Keep. -/
def exA : ExecutedBlock := ExecutedBlock.new blockA resultA

/-- Reconfiguration-suffix executed block whose wrapped block still has a
non-empty payload. -/
def exS : ExecutedBlock := ExecutedBlock.new blockA resultS

/-- Executed block with mismatched payload and status lengths. -/
def exM : ExecutedBlock := ExecutedBlock.new blockA resultM

/-- Root executed block (no quorum certificate). -/
def exR : ExecutedBlock := ExecutedBlock.new blockR resultA

/-- Unfolding of `keepByIndexSpec` on cons cells: the head transaction is
kept exactly when the head status is `Keep`, followed by the spec applied
to the tails. -/
theorem keepByIndexSpec_cons (t : Transaction) (ts : List Transaction)
    (s : TransactionStatus) (ss : List TransactionStatus) :
    keepByIndexSpec (t :: ts) (s :: ss) =
      (match s with
        | TransactionStatus.Keep _ => [t]
        | _ => []) ++ keepByIndexSpec ts ss := by
  unfold keepByIndexSpec
  rw [List.length_cons, List.range_succ_eq_map, List.filterMap_cons,
    List.filterMap_map]
  have htail := List.filterMap_congr (l := List.range ts.length)
    (f := (fun i =>
      match (t :: ts)[i]?, (s :: ss)[i]? with
      | some t, some (TransactionStatus.Keep _) => some t
      | _, _ => none) ∘ Nat.succ)
    (g := fun i =>
      match ts[i]?, ss[i]? with
      | some t, some (TransactionStatus.Keep _) => some t
      | _, _ => none)
    (fun i _ => by simp [Function.comp])
  cases s <;> simp [htail]

/-- The zip-and-filter implementation of the commit filter agrees with the
index-based specification on sequences of equal length. -/
theorem zip_filterMap_keep_eq_keepByIndexSpec (txns : List Transaction)
    (statuses : List TransactionStatus) (h : txns.length = statuses.length) :
    ((txns.zip statuses).filterMap fun p =>
        match p.2 with
        | TransactionStatus.Keep _ => some p.1
        | _ => none) =
      keepByIndexSpec txns statuses := by
  induction txns generalizing statuses with
  | nil =>
    cases statuses with
    | nil => simp [keepByIndexSpec]
    | cons s ss => simp at h
  | cons t ts ih =>
    cases statuses with
    | nil => simp at h
    | cons s ss =>
      have h' : ts.length = ss.length := by simpa using h
      rw [List.zip_cons_cons, List.filterMap_cons, keepByIndexSpec_cons,
        ← ih ss h']
      cases s <;> simp

/-- Sample block for scenario C: single-transaction payload. -/
def blockC : Block :=
  { id := ⟨11⟩, epoch := 1, round := 6, timestamp_usecs := 1100,
    payload := some [tx1], quorum_cert := some ⟨parentInfo⟩ }

/-- Sample compute result for scenario C: the reconfiguration-triggering
block itself — epoch state present, one Keep status, one event. -/
def resultC : StateComputeResult :=
  { root_hash := ⟨101⟩, version := 11,
    compute_status := [TransactionStatus.Keep 0],
    epoch_state := some ⟨2⟩, reconfig_events := [⟨7⟩],
    extension_proof := ⟨3⟩, signature := some ⟨4⟩ }

/-- Scenario C executed block. -/
def exC : ExecutedBlock := ExecutedBlock.new blockC resultC

/-- Claim C1: for a block that is not a reconfiguration suffix and whose
executed transaction sequence matches the compute-status sequence in
length, `transactions_to_commit` returns exactly the transactions whose
same-index status is Keep, in original order; for a reconfiguration
suffix it returns the empty sequence. -/
theorem transactions_to_commit_keeps_exactly_keeps (e : ExecutedBlock) :
    (e.is_reconfiguration_suffix = false →
      e.block.transactions_to_execute.length =
        e.state_compute_result.compute_status.length →
      e.transactions_to_commit =
        some (keepByIndexSpec e.block.transactions_to_execute
          e.state_compute_result.compute_status)) ∧
    (e.is_reconfiguration_suffix = true →
      e.transactions_to_commit = some []) := by
  constructor
  · intro hs hlen
    simp only [ExecutedBlock.transactions_to_commit, hs, Bool.false_eq_true,
      if_false, zip_eq, if_pos hlen, Option.map_some']
    exact congrArg some (zip_filterMap_keep_eq_keepByIndexSpec _ _ hlen)
  · intro hs
    simp [ExecutedBlock.transactions_to_commit, hs]

/-- Witness for claim C1: scenario A commits exactly tx1 and tx3, and a
reconfiguration suffix commits nothing. -/
theorem transactions_to_commit_keeps_exactly_keeps_witness :
    exA.transactions_to_commit = some [tx1, tx3] ∧
      exS.transactions_to_commit = some [] := by
  constructor
  · have h := (transactions_to_commit_keeps_exactly_keeps exA).1
      (by decide) (by decide)
    rw [h]; decide
  · exact (transactions_to_commit_keeps_exactly_keeps exS).2 (by decide)

/-- Claim C2: `is_reconfiguration_suffix` holds iff the result has a
reconfiguration and an empty compute status, and on a suffix both
`transactions_to_commit` and `reconfig_event` are empty. -/
theorem is_reconfiguration_suffix_spec (e : ExecutedBlock) :
    (e.is_reconfiguration_suffix = true ↔
      e.compute_result.has_reconfiguration = true ∧
        e.compute_result.compute_status = []) ∧
    (e.is_reconfiguration_suffix = true →
      e.transactions_to_commit = some [] ∧ e.reconfig_event = []) := by
  constructor
  · simp [ExecutedBlock.is_reconfiguration_suffix, ExecutedBlock.compute_result,
      List.isEmpty_iff]
  · intro hs
    constructor
    · simp [ExecutedBlock.transactions_to_commit, hs]
    · simp [ExecutedBlock.reconfig_event, hs]

/-- Witness for claim C2: scenario B, a block whose result carries the
epoch state and no compute status. -/
theorem is_reconfiguration_suffix_spec_witness :
    exS.is_reconfiguration_suffix = true ∧
      exS.transactions_to_commit = some [] ∧ exS.reconfig_event = [] :=
  ⟨(is_reconfiguration_suffix_spec exS).1.mpr ⟨by decide, by decide⟩,
    (is_reconfiguration_suffix_spec exS).2 (by decide)⟩

/-- Claim C3: outside the reconfiguration-suffix case, a length mismatch
between the executed transactions and the compute statuses makes
`transactions_to_commit` fail fast (the modelled fatal error, `none`)
rather than return a partial list. -/
theorem transactions_to_commit_fails_fast_on_mismatch (e : ExecutedBlock)
    (hs : e.is_reconfiguration_suffix = false)
    (hlen : e.block.transactions_to_execute.length ≠
      e.state_compute_result.compute_status.length) :
    e.transactions_to_commit = none := by
  simp [ExecutedBlock.transactions_to_commit, hs, zip_eq, hlen]

/-- Witness for claim C3: three transactions against one status entry. -/
theorem transactions_to_commit_fails_fast_on_mismatch_witness :
    exM.transactions_to_commit = none :=
  transactions_to_commit_fails_fast_on_mismatch exM (by decide) (by decide)

/-- Claim C4: `reconfig_event` is empty on a reconfiguration suffix and
otherwise returns the result events verbatim, also on the triggering
block itself. -/
theorem reconfig_event_spec (e : ExecutedBlock) :
    (e.is_reconfiguration_suffix = true → e.reconfig_event = []) ∧
    (e.is_reconfiguration_suffix = false →
      e.reconfig_event = e.compute_result.reconfig_events) := by
  constructor <;> intro hs <;>
    simp [ExecutedBlock.reconfig_event, ExecutedBlock.compute_result, hs]

/-- Witness for claim C4: the suffix emits nothing while the triggering
block of scenario C (reconfiguration with non-empty status) emits its
event unfiltered. -/
theorem reconfig_event_spec_witness :
    exS.reconfig_event = [] ∧ exC.reconfig_event = [(⟨7⟩ : ContractEvent)] := by
  constructor
  · exact (reconfig_event_spec exS).1 (by decide)
  · have h := (reconfig_event_spec exC).2 (by decide)
    rw [h]; decide

/-- Claim C5: `parent_id` on the root block (no quorum certificate)
signals the distinct missing-parent result `none` rather than a default
identifier, and on every non-root block returns the certified block id
inside the quorum certificate. -/
theorem parent_id_spec (e : ExecutedBlock) :
    (e.block.quorum_cert = none → e.parent_id = none) ∧
    (∀ qc : QuorumCert, e.block.quorum_cert = some qc →
      e.parent_id = some qc.certified_block.id) := by
  constructor
  · intro h
    simp [ExecutedBlock.parent_id, ExecutedBlock.quorum_cert, h]
  · intro qc h
    simp [ExecutedBlock.parent_id, ExecutedBlock.quorum_cert, h]

/-- Witness for claim C5: the root block yields `none`; scenario A yields
the parent id certified by its quorum certificate. -/
theorem parent_id_spec_witness :
    exR.parent_id = none ∧ exA.parent_id = some (⟨9⟩ : HashValue) := by
  constructor
  · exact (parent_id_spec exR).1 (by decide)
  · have h := (parent_id_spec exA).2 ⟨parentInfo⟩ (by decide)
    rw [h]; decide

/-- Claim C6: `block_info` takes epoch, round, id and timestamp from the
wrapped block and root hash, version and epoch state from the wrapped
compute result. -/
theorem block_info_spec (e : ExecutedBlock) :
    e.block_info.epoch = e.block.epoch ∧
    e.block_info.round = e.block.round ∧
    e.block_info.id = e.block.id ∧
    e.block_info.timestamp_usecs = e.block.timestamp_usecs ∧
    e.block_info.executed_state_id = e.compute_result.root_hash ∧
    e.block_info.version = e.compute_result.version ∧
    e.block_info.next_epoch_state = e.compute_result.epoch_state :=
  ⟨rfl, rfl, rfl, rfl, rfl, rfl, rfl⟩

/-- Claim C7: `block_info` is deterministic — two executed blocks built
from equal block and compute-result values yield equal summaries. -/
theorem block_info_deterministic (e1 e2 : ExecutedBlock)
    (hb : e1.block = e2.block)
    (hr : e1.state_compute_result = e2.state_compute_result) :
    e1.block_info = e2.block_info := by
  unfold ExecutedBlock.block_info ExecutedBlock.compute_result
  rw [hb, hr]

/-- Witness for claim C7: two separately constructed executed blocks over
equal components have equal summaries. -/
theorem block_info_deterministic_witness :
    exA.block_info = (ExecutedBlock.new blockA resultA).block_info :=
  block_info_deterministic exA (ExecutedBlock.new blockA resultA) rfl rfl

/-- Claim C8: the vote proposal carries the result extension proof, the
wrapped block, the result epoch state and the given flag, paired with the
result signature; the flag changes nothing but the recorded flag. -/
theorem maybe_signed_vote_proposal_spec (e : ExecutedBlock) (d : Bool) :
    ((e.maybe_signed_vote_proposal d).vote_proposal.accumulator_extension_proof =
        e.compute_result.extension_proof ∧
      (e.maybe_signed_vote_proposal d).vote_proposal.block = e.block ∧
      (e.maybe_signed_vote_proposal d).vote_proposal.next_epoch_state =
        e.compute_result.epoch_state ∧
      (e.maybe_signed_vote_proposal d).vote_proposal.decoupled_execution = d ∧
      (e.maybe_signed_vote_proposal d).signature = e.compute_result.signature) ∧
    ((e.maybe_signed_vote_proposal true).vote_proposal.accumulator_extension_proof =
        (e.maybe_signed_vote_proposal false).vote_proposal.accumulator_extension_proof ∧
      (e.maybe_signed_vote_proposal true).vote_proposal.block =
        (e.maybe_signed_vote_proposal false).vote_proposal.block ∧
      (e.maybe_signed_vote_proposal true).vote_proposal.next_epoch_state =
        (e.maybe_signed_vote_proposal false).vote_proposal.next_epoch_state ∧
      (e.maybe_signed_vote_proposal true).signature =
        (e.maybe_signed_vote_proposal false).signature) :=
  ⟨⟨rfl, rfl, rfl, rfl, rfl⟩, rfl, rfl, rfl, rfl⟩

/-- Claim C9: the accessors id, epoch, round, timestamp, payload, quorum
certificate and compute result are total projections of the wrapped block
and result. -/
theorem accessors_are_projections (e : ExecutedBlock) :
    e.id = e.block.id ∧
    e.epoch = e.block.epoch ∧
    e.round = e.block.round ∧
    e.timestamp_usecs = e.block.timestamp_usecs ∧
    e.payload = e.block.payload ∧
    e.quorum_cert = e.block.quorum_cert ∧
    e.compute_result = e.state_compute_result :=
  ⟨rfl, rfl, rfl, rfl, rfl, rfl, rfl⟩

/-- Claim C10: the suffix check takes precedence over the length check —
on a reconfiguration suffix whose transaction sequence is non-empty (so
it mismatches the empty compute status), `transactions_to_commit` still
succeeds with the empty list instead of the fatal mismatch error, and
`reconfig_event` is empty. -/
theorem suffix_check_precedes_length_check (e : ExecutedBlock)
    (hs : e.is_reconfiguration_suffix = true)
    (hne : e.block.transactions_to_execute ≠ []) :
    e.transactions_to_commit = some [] ∧ e.reconfig_event = [] := by
  constructor
  · simp [ExecutedBlock.transactions_to_commit, hs]
  · simp [ExecutedBlock.reconfig_event, hs]

/-- Witness for claim C10: a suffix block wrapping a three-transaction
payload commits nothing and emits nothing, without a mismatch failure. -/
theorem suffix_check_precedes_length_check_witness :
    exS.transactions_to_commit = some [] ∧ exS.reconfig_event = [] :=
  suffix_check_precedes_length_check exS (by decide) (by decide)
